import Mathlib

/-!
Shallow embedding of the wear-leveling EEPROM engine in WL_AT24CX.h.

The device is modelled as a byte-addressed memory (a function from byte
address to byte value).  The payload type parameter data_t of the C++
template is modelled by its packed in-memory byte representation: a list
of data_size bytes (the ESP32 target is little-endian and the on-media
struct is packed, so the in-memory bytes are the stored bytes).  All
32-bit unsigned arithmetic of the source is carried out on Nat with
explicit reduction modulo 4294967296.  A fatal assert in the source is
modelled by returning none.
-/

namespace WLAT

abbrev Mem := Nat → Nat

def writeByte (m : Mem) (a v : Nat) : Mem := fun x => if x = a then v else m x

def writeBytes : Mem → Nat → List Nat → Mem
  | m, _, [] => m
  | m, a, b :: bs => writeBytes (writeByte m a b) (a + 1) bs

def readBytes (m : Mem) : Nat → Nat → List Nat
  | _, 0 => []
  | a, n + 1 => m a :: readBytes m (a + 1) n

/-- Little-endian decode of 4 bytes, as the packed uint32_t ptr field is laid
out in memory on the little-endian target. -/
def le32 : List Nat → Nat
  | b0 :: b1 :: b2 :: b3 :: _ => b0 + 256 * b1 + 65536 * b2 + 16777216 * b3
  | _ => 0

def le32enc (v : Nat) : List Nat :=
  [v % 256, v / 256 % 256, v / 65536 % 256, v / 16777216 % 256]

/-- pointer_max = std::numeric_limits of uint32_t = 0xFFFFFFFF. -/
def pointer_max : Nat := 4294967295

/-- Unsigned 32-bit subtraction a - b, for a b < 2^32. -/
def sub32 (a b : Nat) : Nat := (a + 4294967296 - b) % 4294967296

/-- The private state of a WL_AT24CX object (its uint32_t and bool fields).
The fields taddr_current, taddr_last, wl_ptr_current are uninitialized in
the source until an init routine runs; they are modelled as 0. -/
structure WL where
  eeprom_size : Nat
  base_addr : Nat
  end_addr : Nat
  num_of_data : Nat
  base_taddr : Nat
  end_taddr : Nat
  data_size : Nat
  taddr_current : Nat
  taddr_last : Nat
  wl_enable : Bool
  wl_ptr_current : Nat
  memisWiped : Bool
deriving DecidableEq

/-- wl_data_size = sizeof(wl_data_t of data_t): data_size payload bytes plus a
packed uint32_t ptr and a uint8_t crc. -/
def wl_data_size (s : WL) : Nat := s.data_size + 5

def taddr_to_addr (s : WL) (taddr : Nat) : Nat :=
  (if s.wl_enable then taddr * wl_data_size s else taddr * s.data_size) + s.base_addr

def addr_to_taddr (s : WL) (addr : Nat) : Nat :=
  if s.wl_enable then (addr - s.base_addr) / wl_data_size s
  else (addr - s.base_addr) / s.data_size

/-- The WL_AT24CX constructor.  It assigns the configuration fields, computes
end_addr, end_taddr (uint32_t num_of_data - 1) and base_taddr, and performs
no device access.  It contains no validity check of any kind. -/
def mkWL (base_addr num_of_data : Nat) (wl_en : Bool) (eeprom_size data_size : Nat) : WL :=
  let s : WL :=
    { eeprom_size := eeprom_size
      base_addr := base_addr
      end_addr := if wl_en then base_addr + (data_size + 5) * num_of_data
                  else base_addr + data_size * num_of_data
      num_of_data := num_of_data
      base_taddr := 0
      end_taddr := (num_of_data + 4294967295) % 4294967296
      data_size := data_size
      taddr_current := 0
      taddr_last := 0
      wl_enable := wl_en
      wl_ptr_current := 0
      memisWiped := false }
  { s with base_taddr := addr_to_taddr s base_addr }

/-- The decoded wl_data_t record: payload bytes, uint32 ptr, uint8 crc. -/
structure WlData where
  data : List Nat
  ptr : Nat
  crc : Nat

def wl_peek (m : Mem) (s : WL) (taddr : Nat) : WlData :=
  let a := taddr_to_addr s taddr
  { data := readBytes m a s.data_size
    ptr := le32 (readBytes m (a + s.data_size) 4)
    crc := m (a + s.data_size + 4) }

/-- calc_crc: XOR of the payload bytes. -/
def calc_crc (data : List Nat) : Nat := data.foldl (fun a b => a ^^^ b) 0

def isdatavalid (input : WlData) : Bool := input.crc == calc_crc input.data

def taddr_step (s : WL) (taddr : Nat) (forward : Bool) : Nat :=
  if forward then (taddr + 1) % s.num_of_data
  else if taddr = 0 then s.end_taddr else taddr - 1

/-- The break test of wl_init at a given taddr: the next record is read at
taddr + 1 with no modular reduction (the FIXME in the source). -/
def wl_breakcond (m : Mem) (s : WL) (taddr : Nat) : Bool :=
  let current := wl_peek m s taddr
  let next := wl_peek m s (taddr + 1)
  (sub32 next.ptr current.ptr != 1) || (next.ptr == pointer_max)

/-- The outer for loop of wl_init: first taddr in [base_taddr, end_taddr]
whose break test fires; none means the loop fell through to assert(0). -/
def findBreak (m : Mem) (s : WL) : Option Nat :=
  (List.range' s.base_taddr (s.end_taddr + 1 - s.base_taddr)).find? (wl_breakcond m s)

/-- The inner CRC loop of wl_init.  The captured next pointer is NOT re-read
when taddr steps back.  The fuel argument models check_attempt: the source
asserts check_attempt < num_of_data after each failed validity check, so at
most num_of_data records are examined; running out of fuel is the assert. -/
def wlInitLoop (m : Mem) (s : WL) (nextPtr : Nat) : Nat → Nat → Option (Nat × Nat × Nat)
  | 0, _ => none
  | fuel + 1, taddr =>
    if taddr == 0 && nextPtr == pointer_max then
      some (0, 0, 0)
    else
      let current := wl_peek m s taddr
      if isdatavalid current then
        some ((taddr + 1) % s.num_of_data, taddr, (current.ptr + 1) % 4294967296)
      else
        wlInitLoop m s nextPtr fuel (if taddr = 0 then s.end_taddr else taddr - 1)

/-- wl_init: result is the triple (taddr_current, taddr_last, wl_ptr_current);
none is a fatal assert (wl_enable false, no break found, or CRC attempts
exhausted). -/
def wl_init (m : Mem) (s : WL) : Option (Nat × Nat × Nat) :=
  if !s.wl_enable then none
  else
    match findBreak m s with
    | none => none
    | some taddr => wlInitLoop m s (wl_peek m s (taddr + 1)).ptr s.num_of_data taddr

def maxIntFound (m : Mem) (s : WL) (taddr : Nat) : Bool :=
  (wl_peek m s (taddr + 1)).ptr == pointer_max

def ptrBreakFound (m : Mem) (s : WL) (taddr : Nat) : Bool :=
  sub32 (wl_peek m s (taddr + 1)).ptr (wl_peek m s taddr).ptr != 1

/-- The first phase of wl_init2: the first taddr in [base_taddr, end_taddr]
at which the loop stops (maxInt found or pointer break found). -/
def find2 (m : Mem) (s : WL) : Option Nat :=
  (List.range' s.base_taddr (s.end_taddr + 1 - s.base_taddr)).find?
    (fun taddr => maxIntFound m s taddr || ptrBreakFound m s taddr)

/-- The CRC do-while loop of wl_init2.  The source asserts when check_attempt
exceeds dataChecked, so dataChecked + 1 records may be examined; the fuel is
dataChecked + 1 and running out is the assert. -/
def wlInit2Loop (m : Mem) (s : WL) : Nat → Nat → Option (Nat × Nat × Nat)
  | 0, _ => none
  | fuel + 1, taddr =>
    let current := wl_peek m s taddr
    if isdatavalid current then
      some (taddr_step s taddr true, taddr, (current.ptr + 1) % 4294967296)
    else
      wlInit2Loop m s fuel (taddr_step s taddr false)

/-- wl_init2: the phase-1 assignments before break are dead stores (phase 2
always overwrites them or asserts), so the result is the blank shortcut or
the phase-2 result.  When phase 1 finds nothing, the loop leaves
taddr = end_taddr + 1 and dataChecked = end_taddr + 1. -/
def wl_init2 (m : Mem) (s : WL) : Option (Nat × Nat × Nat) :=
  if !s.wl_enable then none
  else
    match find2 m s with
    | some taddr =>
      if maxIntFound m s taddr && ((wl_peek m s taddr).ptr == pointer_max) then
        some (0, 0, 0)
      else wlInit2Loop m s (taddr + 1) taddr
    | none => wlInit2Loop m s (s.end_taddr + 2) (s.end_taddr + 1)

/-- wl_push: asserts wl_enable, writes the packed record at the head slot,
then advances.  The write is data bytes, then the uint32 ptr little-endian,
then the crc byte, at taddr_to_addr(taddr_current). -/
def wl_push (s : WL) (m : Mem) (data : List Nat) : Option (WL × Mem) :=
  if !s.wl_enable then none
  else
    let buffer := data ++ le32enc s.wl_ptr_current ++ [calc_crc data]
    let addr := taddr_to_addr s s.taddr_current
    some ({ s with wl_ptr_current := (s.wl_ptr_current + 1) % 4294967296
                   taddr_last := s.taddr_current
                   taddr_current := (s.taddr_current + 1) % s.num_of_data },
          writeBytes m addr buffer)

/-- write_mem: circular addressing, then a raw data_size byte write. -/
def write_mem (s : WL) (m : Mem) (taddr : Nat) (data : List Nat) : Mem :=
  writeBytes m (taddr_to_addr s (taddr % s.num_of_data)) data

/-- read_mem: circular addressing, then a raw data_size byte read. -/
def read_mem (s : WL) (m : Mem) (taddr : Nat) : List Nat :=
  readBytes m (taddr_to_addr s (taddr % s.num_of_data)) s.data_size

/-- The wipe loop writes 8 bytes of 0xFF at i = 8 j for each chunk index
j < ceil(size / 8); chunks are applied in increasing i order.  Faithful to
the source for size < 2^31 (the loop index is a C int). -/
def wipeChunks (m : Mem) : Nat → Mem
  | 0 => m
  | j + 1 => writeBytes (wipeChunks m j) (8 * j) (List.replicate 8 255)

def wipe (m : Mem) (size : Nat) : Mem := wipeChunks m ((size + 7) / 8)

/-- wl_get_last_data: the memisWiped flag is initialized false in the source
and never assigned anywhere, so the first branch is always taken on states
the program can reach; returning data_t(0) is the all-zero byte payload. -/
def wl_get_last_data (m : Mem) (s : WL) : List Nat :=
  if !s.memisWiped then (wl_peek m s s.taddr_last).data
  else List.replicate s.data_size 0

/-- Apply the result triple of wl_init2 to the object state, as the
assignments inside wl_init2 do.  No other field is written by the routine;
in particular memisWiped is untouched. -/
def runInit2 (m : Mem) (s : WL) : Option WL :=
  (wl_init2 m s).map fun r =>
    { s with taddr_current := r.1, taddr_last := r.2.1, wl_ptr_current := r.2.2 }

/-- n consecutive wl_push calls with payloads f 0, f 1, ... -/
def pushSeq (f : Nat → List Nat) : Nat → WL → Mem → Option (WL × Mem)
  | 0, s, m => some (s, m)
  | n + 1, s, m =>
    match pushSeq f n s m with
    | none => none
    | some p => wl_push p.1 p.2 (f n)

/-- Modelled from the spec: constructor validation as Section 7 of the
specification states it, fatal (none) when N < 2 or base + N (S + 5)
exceeds the device size.  The source constructor performs no such check;
this definition exists only for comparison with mkWL. -/
def mkWL_spec (base_addr num_of_data : Nat) (wl_en : Bool) (eeprom_size data_size : Nat) :
    Option WL :=
  if num_of_data < 2 ∨ base_addr + num_of_data * (data_size + 5) > eeprom_size then none
  else some (mkWL base_addr num_of_data wl_en eeprom_size data_size)

/-! Concrete fixtures: the reference configuration of the spec scenarios,
N = 4 slots, u16 payload (data_size = 2, record size 7), base = 0. -/

/-- A u16 value as its two little-endian payload bytes. -/
def u16le (v : Nat) : List Nat := [v % 256, v / 256 % 256]

/-- A fully blank (erased, all 0xFF) device. -/
def blankMem : Mem := fun _ => 255

/-- An all-zero device, used to observe which bytes wipe touches. -/
def zeroMem : Mem := fun _ => 0

def s0 : WL := mkWL 0 4 true 32768 2

/-- The state after a blank open (its scan yields (0, 0, 0)). -/
def s1 : WL := (runInit2 blankMem s0).getD s0

/-- State and device after push(0x1234) on the blank-open state. -/
def push1 : WL × Mem := (wl_push s1 blankMem (u16le 4660)).getD (s0, blankMem)

/-- State and device after the further push(0x5678). -/
def push2 : WL × Mem := (wl_push push1.1 push1.2 (u16le 22136)).getD (s0, blankMem)

/-- Device with slot 0 holding record (0x1234, seq 0, crc 0x26) and slots
1..3 blank: exactly one committed write since wipe. -/
def mem1 : Mem := push1.2

/-- Device of the torn-write scenario: two pushes, then slot 1 crc byte
(device address 13) overwritten with 0x00. -/
def mem2 : Mem := writeByte push2.2 13 0

/-- Slots 0..3 hold CRC-valid records with seq 0,1,2,3 (payload [i, 0],
crc i); everything past the region extent [0, 28) is blank. -/
def memA : Mem :=
  writeBytes blankMem 0
    [0,0,0,0,0,0,0, 1,0,1,0,0,0,1, 2,0,2,0,0,0,2, 3,0,3,0,0,0,3]

/-- Same region bytes as memA, but the bytes past the region extent (slot
index 4) are changed to a record with seq 4 and valid crc. -/
def memB : Mem := writeBytes memA 28 [0,0,4,0,0,0,0]

/-- A passthrough (wear-leveling disabled) region: N = 4 payloads of 2
bytes at base 0. -/
def sPT : WL := mkWL 0 4 false 32768 2

/-! Helper lemmas about the byte memory. -/

theorem writeBytes_lt (bs : List Nat) (m : Mem) (a x : Nat) (h : x < a) :
    writeBytes m a bs x = m x := by
  induction bs generalizing m a with
  | nil => rfl
  | cons b bs ih =>
    show writeBytes (writeByte m a b) (a + 1) bs x = m x
    rw [ih (writeByte m a b) (a + 1) (by omega)]
    unfold writeByte
    rw [if_neg (by omega)]

theorem writeBytes_ge (bs : List Nat) (m : Mem) (a x : Nat) (h : a + bs.length ≤ x) :
    writeBytes m a bs x = m x := by
  induction bs generalizing m a with
  | nil => rfl
  | cons b bs ih =>
    show writeBytes (writeByte m a b) (a + 1) bs x = m x
    simp only [List.length_cons] at h
    rw [ih (writeByte m a b) (a + 1) (by omega)]
    unfold writeByte
    rw [if_neg (by omega)]

theorem readBytes_congr (n : Nat) (m1 m2 : Mem) (a : Nat)
    (h : ∀ i, i < n → m1 (a + i) = m2 (a + i)) :
    readBytes m1 a n = readBytes m2 a n := by
  induction n generalizing a with
  | zero => rfl
  | succ n ih =>
    show m1 a :: readBytes m1 (a + 1) n = m2 a :: readBytes m2 (a + 1) n
    have h0 : m1 a = m2 a := by have := h 0 (by omega); simpa using this
    have ht : readBytes m1 (a + 1) n = readBytes m2 (a + 1) n := by
      refine ih (a + 1) (fun i hi => ?_)
      have := h (i + 1) (by omega)
      rwa [show a + (i + 1) = a + 1 + i by omega] at this
    rw [h0, ht]

theorem readBytes_writeBytes (bs : List Nat) (m : Mem) (a : Nat) :
    readBytes (writeBytes m a bs) a bs.length = bs := by
  induction bs generalizing m a with
  | nil => rfl
  | cons b bs ih =>
    show writeBytes (writeByte m a b) (a + 1) bs a ::
        readBytes (writeBytes (writeByte m a b) (a + 1) bs) (a + 1) bs.length = b :: bs
    rw [writeBytes_lt bs (writeByte m a b) (a + 1) a (by omega), ih]
    simp [writeByte]

theorem writeBytes_append (bs cs : List Nat) (m : Mem) (a : Nat) :
    writeBytes m a (bs ++ cs) = writeBytes (writeBytes m a bs) (a + bs.length) cs := by
  induction bs generalizing m a with
  | nil => simp [writeBytes]
  | cons b bs ih =>
    show writeBytes (writeByte m a b) (a + 1) (bs ++ cs) = _
    rw [ih]
    simp only [List.length_cons]
    rw [show a + 1 + bs.length = a + (bs.length + 1) from by omega]
    rfl

theorem readBytes_writeBytes_front (bs cs : List Nat) (m : Mem) (a : Nat) :
    readBytes (writeBytes m a (bs ++ cs)) a bs.length = bs := by
  rw [writeBytes_append]
  rw [readBytes_congr bs.length _ (writeBytes m a bs) a
    (fun i hi => writeBytes_lt cs _ (a + bs.length) (a + i) (by omega))]
  exact readBytes_writeBytes bs m a

theorem writeBytes_replicate255 (n : Nat) (m : Mem) (a x : Nat)
    (h1 : a ≤ x) (h2 : x < a + n) :
    writeBytes m a (List.replicate n 255) x = 255 := by
  induction n generalizing m a with
  | zero => omega
  | succ n ih =>
    rw [List.replicate_succ]
    show writeBytes (writeByte m a 255) (a + 1) (List.replicate n 255) x = 255
    by_cases hx : x = a
    · rw [writeBytes_lt _ _ _ _ (by omega)]
      simp [writeByte, hx]
    · exact ih (writeByte m a 255) (a + 1) (by omega) (by omega)

theorem wipeChunks_in (j : Nat) (m : Mem) (x : Nat) (h : x < 8 * j) :
    wipeChunks m j x = 255 := by
  induction j with
  | zero => omega
  | succ j ih =>
    show writeBytes (wipeChunks m j) (8 * j) (List.replicate 8 255) x = 255
    by_cases hx : x < 8 * j
    · rw [writeBytes_lt _ _ _ _ hx]
      exact ih hx
    · exact writeBytes_replicate255 8 _ (8 * j) x (by omega) (by omega)

theorem wipeChunks_out (j : Nat) (m : Mem) (x : Nat) (h : 8 * j ≤ x) :
    wipeChunks m j x = m x := by
  induction j with
  | zero => rfl
  | succ j ih =>
    show writeBytes (wipeChunks m j) (8 * j) (List.replicate 8 255) x = m x
    rw [writeBytes_ge _ _ _ _ (by simp; omega)]
    exact ih (by omega)

theorem readBytes_blank (n : Nat) (a : Nat) : readBytes blankMem a n = List.replicate n 255 := by
  induction n generalizing a with
  | zero => rfl
  | succ n ih =>
    show blankMem a :: readBytes blankMem (a + 1) n = _
    rw [List.replicate_succ, ih]
    rfl

theorem wl_peek_blank_ptr (s : WL) (t : Nat) : (wl_peek blankMem s t).ptr = pointer_max := by
  show le32 (readBytes blankMem (taddr_to_addr s t + s.data_size) 4) = pointer_max
  rw [readBytes_blank]
  decide

/-- On a fully blank device wl_init takes the break at taddr 0 and the
blank shortcut inside the CRC loop, yielding (0, 0, 0). -/
theorem wl_init_blank (s : WL) (hwl : s.wl_enable = true) (hbt : s.base_taddr = 0)
    (hN : 0 < s.num_of_data) : wl_init blankMem s = some (0, 0, 0) := by
  obtain ⟨n, hn⟩ : ∃ n, s.num_of_data = n + 1 := ⟨s.num_of_data - 1, by omega⟩
  have hcond : wl_breakcond blankMem s 0 = true := by
    simp [wl_breakcond, wl_peek_blank_ptr]
  have hfb : findBreak blankMem s = some 0 := by
    unfold findBreak
    rw [hbt]
    simp only [Nat.sub_zero]
    rw [List.range'_succ]
    exact List.find?_cons_of_pos _ hcond
  unfold wl_init
  rw [hwl, hfb]
  simp only [Bool.not_true, Bool.false_eq_true, if_false]
  rw [wl_peek_blank_ptr, hn]
  simp [wlInitLoop]

/-- On a fully blank device wl_init2 stops at taddr 0 with maxIntFound and
current.ptr = pointer_max and returns (0, 0, 0). -/
theorem wl_init2_blank (s : WL) (hwl : s.wl_enable = true) (hbt : s.base_taddr = 0) :
    wl_init2 blankMem s = some (0, 0, 0) := by
  have hmax : maxIntFound blankMem s 0 = true := by
    simp [maxIntFound, wl_peek_blank_ptr]
  have hfb : find2 blankMem s = some 0 := by
    unfold find2
    rw [hbt]
    simp only [Nat.sub_zero]
    rw [List.range'_succ]
    exact List.find?_cons_of_pos _ (by simp [hmax])
  unfold wl_init2
  rw [hwl, hfb]
  simp [hmax, wl_peek_blank_ptr]

/-! Claim theorems. -/

/-- Claim C1: the blank shortcut of open must fire iff both slot 0 and
slot 1 hold seq 0xFFFFFFFF.  On the device mem1 (slot 0 a CRC-valid record
with seq 0, slot 1 blank) wl_init2 behaves as the claim demands, setting
head 1, last 0, next_seq 1, and on the fully blank device it takes the
shortcut; but wl_init wrongly takes the blank shortcut on mem1, because
its shortcut tests only taddr 0 and the seq of slot 1. -/
theorem c1_blank_shortcut :
    wl_init2 mem1 s0 = some (1, 0, 1) ∧
    wl_init2 blankMem s0 = some (0, 0, 0) ∧
    wl_init mem1 s0 = some (0, 0, 0) := by decide

/-- Claim C2: torn-write recovery on the concrete region N 4, u16 payload,
base 0: after push 0x1234, push 0x5678 and corruption of the crc byte of
slot 1, wl_init2 establishes head 1, last 0, next_seq 1 and get_last
returns the 0x1234 payload; wl_init instead declares the region blank,
because after stepping back to taddr 0 it re-tests the blank shortcut
against the stale next record. -/
theorem c2_torn_recovery :
    (wl_push s1 blankMem (u16le 4660)).isSome = true ∧
    (wl_push push1.1 push1.2 (u16le 22136)).isSome = true ∧
    wl_init2 mem2 s0 = some (1, 0, 1) ∧
    wl_get_last_data mem2 ((runInit2 mem2 s0).getD s0) = u16le 4660 ∧
    wl_init mem2 s0 = some (0, 0, 0) := by decide

/-- Claim C3 counterexample: the two scanners are not equivalent.  On mem1
both terminate without a fatal assertion yet produce different states, and
on memB wl_init asserts fatally while wl_init2 succeeds. -/
theorem c3_counterexample :
    (wl_init mem1 s0 ≠ wl_init2 mem1 s0 ∧
      (wl_init mem1 s0).isSome = true ∧ (wl_init2 mem1 s0).isSome = true) ∧
    (wl_init memB s0 = none ∧ (wl_init2 memB s0).isSome = true) := by decide

/-- Claim C3 amended: the two scanners agree on a fully blank region (both
return (0, 0, 0) for every constructed geometry with at least one slot),
but they are not equivalent in general: on mem1 both terminate normally
with different states. -/
theorem c3_agree_on_blank (base N size S : Nat) (h1 : 1 ≤ N) :
    wl_init blankMem (mkWL base N true size S) = wl_init2 blankMem (mkWL base N true size S) ∧
    wl_init mem1 s0 ≠ wl_init2 mem1 s0 := by
  have hwl : (mkWL base N true size S).wl_enable = true := by simp [mkWL]
  have hbt : (mkWL base N true size S).base_taddr = 0 := by
    simp [mkWL, addr_to_taddr]
  have hN : 0 < (mkWL base N true size S).num_of_data := by
    simp only [mkWL]
    omega
  constructor
  · rw [wl_init_blank _ hwl hbt hN, wl_init2_blank _ hwl hbt]
  · decide

theorem c3_agree_on_blank_witness :
    wl_init blankMem (mkWL 0 4 true 32768 2) = wl_init2 blankMem (mkWL 0 4 true 32768 2) :=
  (c3_agree_on_blank 0 4 32768 2 (by decide)).1

/-- Claim C4: the scan is claimed to read the neighbor of slot i at slot
(i + 1) mod N.  The source reads taddr + 1 unreduced: the two devices memA
and memB agree on every byte of the region extent [0, 28) and differ only
at slot index N = 4, yet wl_init succeeds on memA and asserts fatally on
memB, and wl_init2 on memB even selects the out-of-region slot 4 as last.
So at i = N - 1 the scanners read slot N, not slot 0. -/
theorem c4_neighbor_read :
    (List.range 28).map memA = (List.range 28).map memB ∧
    wl_init memA s0 = some (0, 3, 4) ∧
    wl_init memB s0 = none ∧
    wl_init2 memA s0 = some (0, 3, 4) ∧
    wl_init2 memB s0 = some (1, 4, 5) := by decide

/-- Claim C5: for every wear-leveling-enabled state and payload v, push v
then get_last returns exactly v. -/
theorem c5_round_trip (s : WL) (m : Mem) (v : List Nat)
    (h1 : s.wl_enable = true) (h2 : s.memisWiped = false)
    (h3 : v.length = s.data_size)
    (h4 : s.taddr_current < s.num_of_data) (h5 : s.taddr_last < s.num_of_data) :
    (wl_push s m v).map (fun p => wl_get_last_data p.2 p.1) = some v := by
  simp only [wl_push, h1, Bool.not_true, Bool.false_eq_true, if_false, Option.map_some']
  unfold wl_get_last_data
  simp only [h2, Bool.not_false, if_pos]
  unfold wl_peek
  simp only [taddr_to_addr, wl_data_size, h1, if_pos]
  rw [List.append_assoc, ← h3]
  exact congrArg some (readBytes_writeBytes_front v _ m _)

theorem c5_round_trip_witness :
    (wl_push s0 blankMem [7, 9]).map (fun p => wl_get_last_data p.2 p.1) = some [7, 9] :=
  c5_round_trip s0 blankMem [7, 9] rfl rfl rfl (by decide) (by decide)

/-- Claim C6: after a blank open, get_last is claimed to return the default
zero payload.  The memisWiped flag is never set by any code path, so
get_last returns the raw all-0xFF slot contents instead. -/
theorem c6_blank_get_last :
    wl_init2 blankMem s0 = some (0, 0, 0) ∧
    wl_get_last_data blankMem ((runInit2 blankMem s0).getD s0) = [255, 255] ∧
    wl_get_last_data blankMem ((runInit2 blankMem s0).getD s0) ≠ List.replicate 2 0 := by
  decide

/-- Claim C7 counterexample: the constructor is claimed to fail fatally for
N < 2 or a region exceeding the device.  The source constructor performs no
check: with N = 1 (and with a region of 35000 bytes on a 32768-byte
device) it succeeds and computes end_addr as usual, while the spec-modelled
validation rejects both configurations. -/
theorem c7_counterexample :
    mkWL_spec 0 1 true 32768 2 = none ∧ (mkWL 0 1 true 32768 2).end_addr = 7 ∧
    mkWL_spec 0 5000 true 32768 2 = none ∧ (mkWL 0 5000 true 32768 2).end_addr = 35000 := by
  decide

/-- Claim C7 amended: construction never fails; for every parameter set it
computes end = base + N (S + 5) in wear-leveled mode or base + N S in
passthrough mode, performs no device access (the constructor does not
consume or produce a memory), and starts with memisWiped false. -/
theorem c7_ctor_total (base N : Nat) (wl : Bool) (size S : Nat) :
    (mkWL base N wl size S).end_addr =
      (if wl then base + (S + 5) * N else base + S * N) ∧
    (mkWL base N wl size S).num_of_data = N ∧
    (mkWL base N wl size S).memisWiped = false := by
  cases wl <;> simp [mkWL]

/-- Claim C8: starting from the blank-open state (head 0), after N + k
pushes the head is at slot k mod N, and the head always stays below N. -/
theorem c8_rotation (f : Nat → List Nat) (s : WL) (m : Mem)
    (h1 : s.wl_enable = true) (h2 : s.taddr_current = 0) (h3 : 0 < s.num_of_data)
    (k : Nat) :
    (pushSeq f (s.num_of_data + k) s m).map (fun p => p.1.taddr_current) =
      some (k % s.num_of_data) ∧
    k % s.num_of_data < s.num_of_data := by
  have main : ∀ n, ∃ p, pushSeq f n s m = some p ∧
      p.1.taddr_current = n % s.num_of_data ∧
      p.1.wl_enable = true ∧ p.1.num_of_data = s.num_of_data := by
    intro n
    induction n with
    | zero => exact ⟨(s, m), rfl, by rw [h2, Nat.zero_mod], h1, rfl⟩
    | succ n ih =>
      obtain ⟨p, hp, ht, hw, hN⟩ := ih
      refine ⟨({ p.1 with
            wl_ptr_current := (p.1.wl_ptr_current + 1) % 4294967296,
            taddr_last := p.1.taddr_current,
            taddr_current := (p.1.taddr_current + 1) % p.1.num_of_data },
          writeBytes p.2 (taddr_to_addr p.1 p.1.taddr_current)
            (f n ++ le32enc p.1.wl_ptr_current ++ [calc_crc (f n)])), ?_, ?_, hw, hN⟩
      · show (match pushSeq f n s m with
          | none => none
          | some p => wl_push p.1 p.2 (f n)) = _
        rw [hp]
        simp only [wl_push, hw, Bool.not_true, Bool.false_eq_true, if_false]
      · show (p.1.taddr_current + 1) % p.1.num_of_data = (n + 1) % s.num_of_data
        rw [ht, hN]
        exact (Nat.mod_modEq n s.num_of_data).add_right 1
  obtain ⟨p, hp, ht, _, _⟩ := main (s.num_of_data + k)
  refine ⟨?_, Nat.mod_lt k h3⟩
  rw [hp, Option.map_some', ht, Nat.add_mod_left]

theorem c8_rotation_witness :
    (pushSeq (fun _ => [0, 0]) (s0.num_of_data + 2) s0 blankMem).map
        (fun p => p.1.taddr_current) = some (2 % s0.num_of_data) ∧
    2 % s0.num_of_data < s0.num_of_data :=
  c8_rotation (fun _ => [0, 0]) s0 blankMem rfl rfl (by decide) 2

/-- Claim C9 counterexample: wipe is claimed to write nothing outside
[0, span).  With span 4 the single 8-byte chunk also writes 0xFF at device
address 4, which lies outside [0, 4). -/
theorem c9_counterexample : wipe zeroMem 4 4 = 255 ∧ zeroMem 4 = 0 := by decide

/-- Claim C9 amended: wipe span writes 0xFF to every byte address below
8 ceil(span / 8), hence to every byte of [0, span), and leaves every byte
at or beyond 8 ceil(span / 8) unchanged; when span is not a multiple of 8
up to 7 bytes past span are also overwritten.  The size bound reflects the
int loop index of the source. -/
theorem c9_chunked_wipe (m : Mem) (size x : Nat) (h : size < 2147483648) :
    (x < size → wipe m size x = 255) ∧
    (x < 8 * ((size + 7) / 8) → wipe m size x = 255) ∧
    (8 * ((size + 7) / 8) ≤ x → wipe m size x = m x) := by
  refine ⟨fun hx => ?_, fun hx => ?_, fun hx => ?_⟩
  · exact wipeChunks_in _ m x (by omega)
  · exact wipeChunks_in _ m x hx
  · exact wipeChunks_out _ m x hx

theorem c9_chunked_wipe_witness : wipe zeroMem 4 5 = 255 :=
  (c9_chunked_wipe zeroMem 4 5 (by decide)).2.1 (by decide)

/-- Claim C10: in passthrough mode, write_mem at index i touches only the
data_size bytes at base + (i mod N) data_size, read_mem after write_mem at
the same index returns the written payload, and the object state is not
modified (write_mem and read_mem return no state, only the memory). -/
theorem c10_passthrough (s : WL) (m : Mem) (i : Nat) (v : List Nat)
    (h0 : s.wl_enable = false) (h1 : v.length = s.data_size)
    (h2 : 0 < s.num_of_data) :
    read_mem s (write_mem s m i v) i = v ∧
    ∀ x, x < s.base_addr + (i % s.num_of_data) * s.data_size ∨
        s.base_addr + (i % s.num_of_data) * s.data_size + s.data_size ≤ x →
      write_mem s m i v x = m x := by
  have haddr : taddr_to_addr s (i % s.num_of_data) =
      (i % s.num_of_data) * s.data_size + s.base_addr := by
    simp [taddr_to_addr, h0]
  constructor
  · unfold read_mem write_mem
    rw [← h1]
    exact readBytes_writeBytes v m _
  · intro x hx
    unfold write_mem
    rcases hx with hlt | hge
    · exact writeBytes_lt v m _ x (by rw [haddr]; omega)
    · exact writeBytes_ge v m _ x (by rw [haddr, h1]; omega)

theorem c10_passthrough_witness :
    read_mem sPT (write_mem sPT zeroMem 5 [3, 4]) 5 = [3, 4] :=
  (c10_passthrough sPT zeroMem 5 [3, 4] rfl rfl (by decide)).1

end WLAT
